import Mathlib

/-!
Verification development for the `fmri-physio-log` package
(`src/fmri_physio_log/__init__.py`, version 0.3.3).

The package parses a Siemens physiological recording log into a structured
record.  The pipeline is: a generated Lark parser (grammar and generated
module are not part of the sources here; the grammar layer is modelled from
the design document), a tree visitor `_PhysioLogVisitor` accumulating the
integer data, annotation strings, per-modality summary buffers, nr buffer
and log-time buffers, and the `PhysioLog._body` / `PhysioLog._footer`
methods that turn the visitor state into the public record.

Machine integers are modelled as `Int` (Python integers are unbounded);
fallible code returns `Except Err`.  Python's `int(x / y)` on the
float quotient is modelled as truncated integer division (`Int.tdiv`),
which agrees with the float computation everywhere in the log-time ranges
relevant here (the float rounding error of the three chained divisions is
many orders of magnitude below the distance to the nearest integer for
timestamps of realistic magnitude).
-/

namespace FmriPhysioLog

/-- Failure modes of the embedded code.  Python raises `ValueError`
(`datetime.time` range checks), `OverflowError` (`datetime.time` argument
conversion to C `int` when a field's magnitude does not fit in 32 bits,
and the float quotient in `logptime` for astronomically large inputs),
`TypeError` (NamedTuple / dataclass called with a wrong number of
positional arguments), `SyntaxError` (`_PhysioLogVisitor.log_line` on an
unknown log type) and `IndexError` (tuple indexing in
`PhysioLog._body`). -/
inductive Err
  | valueError
  | overflowError
  | typeError
  | syntaxError
  | indexError
deriving Repr, DecidableEq

/-- NamedTuple `MeasurementSummary` from the source: six integer fields. -/
structure MeasurementSummary where
  freq : Int
  per : Int
  min : Int
  max : Int
  avg : Int
  std_diff : Int
deriving Repr, DecidableEq

/-- NamedTuple `NrSummary` from the source: four integer fields. -/
structure NrSummary where
  nr_trig : Int
  nr_m_p : Int
  nr_arr : Int
  acq_win : Int
deriving Repr, DecidableEq

/-- Model of Python's `datetime.time` value: hour, minute, second and
microsecond fields. -/
structure Time where
  hour : Int
  minute : Int
  second : Int
  microsecond : Int
deriving Repr, DecidableEq

/-- Model of the `datetime.time` constructor.  CPython first converts each
argument to a C `int` during argument parsing, raising `OverflowError`
when a value lies outside `[-2^31, 2^31 - 1]`; only then does
`check_time_args` validate `0 <= hour <= 23`, `0 <= minute <= 59`,
`0 <= second <= 59` and `0 <= microsecond <= 999999`, raising
`ValueError` otherwise. -/
def Time.make (hour minute second microsecond : Int) : Except Err Time :=
  if -2147483648 ≤ hour ∧ hour ≤ 2147483647 ∧
      -2147483648 ≤ minute ∧ minute ≤ 2147483647 ∧
      -2147483648 ≤ second ∧ second ≤ 2147483647 ∧
      -2147483648 ≤ microsecond ∧ microsecond ≤ 2147483647 then
    if 0 ≤ hour ∧ hour ≤ 23 ∧ 0 ≤ minute ∧ minute ≤ 59 ∧
        0 ≤ second ∧ second ≤ 59 ∧ 0 ≤ microsecond ∧ microsecond ≤ 999999 then
      .ok ⟨hour, minute, second, microsecond⟩
    else
      .error .valueError
  else
    .error .overflowError

/-- Model of `LogTime.logptime` from the source:

    hour = int(timestamp / 1000 / 60 / 60)
    min = int(timestamp / 1000 / 60) - hour * 60
    sec = int(timestamp / 1000) - (hour * 60 * 60 + min * 60)
    msec = timestamp - (hour * 1000 * 60 * 60 + min * 1000 * 60 + sec * 1000)
    return datetime.time(hour, min, sec, msec * 1000)

`int(...)` truncates toward zero, i.e. `Int.tdiv`; truncation of the
chained quotients equals the chained truncated divisions.  The float
quotients are modelled as exact: this is provably error-free on the
`datetime`-valid range, and on the far side of the C-`int` threshold
(|hour| beyond 2^31, including the |t| beyond ~1.8e311 where Python's
float division itself overflows) the program and the model both surface
an `OverflowError`, through `Time.make`'s conversion check here; only
the exact switching points between the two error kinds near |t| of about
7.73e15 inherit float rounding fuzz of a few units of `t`. -/
def logptime (timestamp : Int) : Except Err Time :=
  let hour := ((timestamp.tdiv 1000).tdiv 60).tdiv 60
  let minute := (timestamp.tdiv 1000).tdiv 60 - hour * 60
  let sec := timestamp.tdiv 1000 - (hour * 60 * 60 + minute * 60)
  let msec := timestamp - (hour * 1000 * 60 * 60 + minute * 1000 * 60 + sec * 1000)
  Time.make hour minute sec (msec * 1000)

/-- Dataclass `LogTime` from the source: raw `start`/`stop` millisecond
timestamps plus the converted `datetime.time` values computed in
`__post_init__` (which can therefore raise `ValueError`). -/
structure LogTime where
  start : Int
  stop : Int
  start_time : Time
  stop_time : Time
deriving Repr, DecidableEq

/-- Construction of a `LogTime`, including the `__post_init__` conversions. -/
def LogTime.make (start stop : Int) : Except Err LogTime := do
  let st ← logptime start
  let sp ← logptime stop
  .ok ⟨start, stop, st, sp⟩

/-- Modelled from the spec: the five modality keywords of footer rate/stat
lines (`Modality ∈ {ECG, PULS, RESP, EXT, EXT2}`), fixed by the grammar,
which is generated code not present in the sources. -/
inductive Modality
  | ECG
  | PULS
  | RESP
  | EXT
  | EXT2
deriving Repr, DecidableEq

/-- Modelled from the spec: one element of the body-data sequence produced
by the (missing, generated) grammar.  Following the design document, the
body after the parameter block is "a sequence of annotation blocks and bare
Integer samples, in original order"; a bare `5000` sentinel is a no-op
separator, and an annotation block `5002 ... 6002` carries its Word tokens
(kept here as the raw token texts). -/
inductive BodyItem
  | sample (value : Int)
  | sep
  | annot (ws : List String)
deriving Repr, DecidableEq

/-- Modelled from the spec: one parsed footer line.  The grammar admits, at
each position between `5003` and `6003`, one of four alternatives:
rate-line, stat-line, nr-line, log-line.  A log line keeps its raw keyword
text (`LogStartMDHTime`, ...) because the visitor dispatches on substring
containment. -/
inductive FooterLine
  | rate (m : Modality) (freq per : Int)
  | stat (m : Modality) (min max avg stdDiff : Int)
  | nr (nrTrig nrMP nrArr acqWin : Int)
  | log (keyword : String) (value : Int)
deriving Repr, DecidableEq

/-- Modelled from the spec: the parse tree of a whole document, a `body`
part and a `footer` part. -/
structure Doc where
  body : List BodyItem
  footer : List FooterLine
deriving Repr, DecidableEq

/-- Integers collected from the body-data sequence: the bare samples, in
order, with separators discarded and annotation contents never included.
This is the INT token content of the grammar's single `data` group, which
`_PhysioLogVisitor.data` stores via `self._data = [i for i in _iter_ints(tree)]`. -/
def bodyData : List BodyItem → List Int
  | [] => []
  | .sample v :: rest => v :: bodyData rest
  | .sep :: rest => bodyData rest
  | .annot _ :: rest => bodyData rest

/-- Annotation strings of the body in encounter order; each block's word
tokens are joined with single spaces (per the design document's description
of the grammar's `info` production; `_PhysioLogVisitor.info` appends each
resulting string). -/
def bodyInfo : List BodyItem → List String
  | [] => []
  | .sample _ :: rest => bodyInfo rest
  | .sep :: rest => bodyInfo rest
  | .annot ws :: rest => " ".intercalate ws :: bodyInfo rest

/-- Decides whether `p` is a prefix of `s` (over character lists). -/
def startsWithSeq : List Char → List Char → Bool
  | [], _ => true
  | _ :: _, [] => false
  | p :: ps, c :: cs => p == c && startsWithSeq ps cs

/-- Decides whether `pat` occurs contiguously inside `s`, the model of
Python's `"MDH" in log_type` substring test. -/
def containsSeq (pat : List Char) : List Char → Bool
  | [] => pat.isEmpty
  | c :: cs => startsWithSeq pat (c :: cs) || containsSeq pat cs

/-- Mutable state of `_PhysioLogVisitor`.  The source keeps `_summaries`
and `_logs` as `defaultdict(list)`; since every `extend` call appends a
non-empty chunk, a key is present in the dict exactly when its accumulated
list is non-empty, so both dicts are modelled as total functions with `[]`
as the default (`_logs` has only the keys `"MDH"`/`"MPCU"`, split into two
fields). -/
structure VisitorState where
  _data : List Int
  _info : List String
  _summaries : Modality → List Int
  _nr : List Int
  logsMDH : List Int
  logsMPCU : List Int

/-- Visitor action for a single footer line (`rate_line`, `stat_line`,
`nr_line`, `log_line` of `_PhysioLogVisitor`).  Rate and stat lines extend
the modality's buffer with their integers in line order; an nr line
replaces `_nr`; a log line extends the `MDH` or `MPCU` buffer according to
substring containment of the keyword, raising `SyntaxError` otherwise. -/
def visitLine (st : VisitorState) : FooterLine → Except Err VisitorState
  | .rate m f p =>
      .ok { st with _summaries := fun m' => if m' = m then st._summaries m' ++ [f, p] else st._summaries m' }
  | .stat m a b c d =>
      .ok { st with _summaries := fun m' => if m' = m then st._summaries m' ++ [a, b, c, d] else st._summaries m' }
  | .nr a b c d => .ok { st with _nr := [a, b, c, d] }
  | .log kw v =>
      if containsSeq "MDH".toList kw.toList then
        .ok { st with logsMDH := st.logsMDH ++ [v] }
      else if containsSeq "MPCU".toList kw.toList then
        .ok { st with logsMPCU := st.logsMPCU ++ [v] }
      else
        .error .syntaxError

/-- Model of `_PhysioLogVisitor.visit` over a whole document: the body's single
`data` node and its `info` nodes fill `_data` and `_info`, then the footer
lines are visited in document order. -/
def visit (doc : Doc) : Except Err VisitorState :=
  List.foldlM visitLine
    ⟨bodyData doc.body, bodyInfo doc.body, fun _ => [], [], [], []⟩
    doc.footer

/-- NamedTuple construction `MeasurementSummary(*values)`: succeeds exactly
on six positional arguments, otherwise Python raises `TypeError`. -/
def mkMeasurement : List Int → Except Err MeasurementSummary
  | [f, p, mn, mx, av, sd] => .ok ⟨f, p, mn, mx, av, sd⟩
  | _ => .error .typeError

/-- NamedTuple construction `NrSummary(*values)`: succeeds exactly on four
positional arguments. -/
def mkNrSummary : List Int → Except Err NrSummary
  | [a, b, c, d] => .ok ⟨a, b, c, d⟩
  | _ => .error .typeError

/-- Dataclass construction `LogTime(*values)`: succeeds exactly on two
positional arguments, then runs the `__post_init__` conversions. -/
def mkLogTime : List Int → Except Err LogTime
  | [a, b] => LogTime.make a b
  | _ => .error .typeError

/-- The public record built by `PhysioLog.parse`.  In Python the modality
fields `ecg`/`puls`/`resp`/`ext` are only ever assigned by the `_footer`
`setattr` loop (they stay unbound when the modality never occurs) and
`ext2` is initialised to `None`; an unset/None field is modelled as
`none`.  Likewise `mdh`/`mpcu` stay unbound unless their log type occurs. -/
structure PhysioLog where
  n_params : Nat
  data : List Int
  params : List Int
  ts : List Int
  rate : Int
  info : List String
  ecg : Option MeasurementSummary
  puls : Option MeasurementSummary
  resp : Option MeasurementSummary
  ext : Option MeasurementSummary
  ext2 : Option MeasurementSummary
  nr : NrSummary
  mdh : Option LogTime
  mpcu : Option LogTime
deriving Repr, DecidableEq

/-- The record field selected by `setattr(self, attr.lower(), ...)` for a
modality key. -/
def getSummary (r : PhysioLog) : Modality → Option MeasurementSummary
  | .ECG => r.ecg
  | .PULS => r.puls
  | .RESP => r.resp
  | .EXT => r.ext
  | .EXT2 => r.ext2

/-- Assignment of a modality's summary field. -/
def setSummary (r : PhysioLog) (m : Modality) (s : MeasurementSummary) : PhysioLog :=
  match m with
  | .ECG => { r with ecg := some s }
  | .PULS => { r with puls := some s }
  | .RESP => { r with resp := some s }
  | .EXT => { r with ext := some s }
  | .EXT2 => { r with ext2 := some s }

/-- One iteration of the `_footer` summary loop for one modality: a key
absent from the defaultdict (empty buffer) is skipped, otherwise
`MeasurementSummary(*values)` is constructed and assigned. -/
def applyModality (v : VisitorState) (r : PhysioLog) (m : Modality) : Except Err PhysioLog :=
  if v._summaries m = [] then .ok r
  else
    match mkMeasurement (v._summaries m) with
    | .error e => .error e
    | .ok s => .ok (setSummary r m s)

/-- The `_footer` summary loop over the five possible modality keys. -/
def applyModalities (r : PhysioLog) (v : VisitorState) : Except Err PhysioLog :=
  match applyModality v r .ECG with
  | .error e => .error e
  | .ok r1 =>
    match applyModality v r1 .PULS with
    | .error e => .error e
    | .ok r2 =>
      match applyModality v r2 .RESP with
      | .error e => .error e
      | .ok r3 =>
        match applyModality v r3 .EXT with
        | .error e => .error e
        | .ok r4 => applyModality v r4 .EXT2

/-- The `_footer` log-time loop, `MDH` entry. -/
def applyMDH (v : VisitorState) (r : PhysioLog) : Except Err PhysioLog :=
  if v.logsMDH = [] then .ok r
  else
    match mkLogTime v.logsMDH with
    | .error e => .error e
    | .ok lt => .ok { r with mdh := some lt }

/-- The `_footer` log-time loop, `MPCU` entry. -/
def applyMPCU (v : VisitorState) (r : PhysioLog) : Except Err PhysioLog :=
  if v.logsMPCU = [] then .ok r
  else
    match mkLogTime v.logsMPCU with
    | .error e => .error e
    | .ok lt => .ok { r with mpcu := some lt }

/-- The `_footer` log-time loop over both keys. -/
def applyLogs (r : PhysioLog) (v : VisitorState) : Except Err PhysioLog :=
  match applyMDH v r with
  | .error e => .error e
  | .ok r1 => applyMPCU v r1

/-- Python tuple indexing `t[i]` for a non-negative index: `IndexError`
when out of range. -/
def getAt (l : List Int) (i : Nat) : Except Err Int :=
  match l.get? i with
  | some x => .ok x
  | none => .error .indexError

/-- The record as it stands after `PhysioLog._body`: `params` is the first
`n_params` integers of `_data`, `ts` the rest, `rate` is `params[2]` when
`n_params == 4` and `params[3]` otherwise, `info` and `data` are copies of
the visitor buffers.  The summary/nr/log fields are not yet assigned. -/
def mkRecord (n : Nat) (v : VisitorState) (rate : Int) (nr : NrSummary) : PhysioLog :=
  ⟨n, v._data, v._data.take n, v._data.drop n, rate, v._info,
    none, none, none, none, none, nr, none, none⟩

/-- Model of `PhysioLog.parse` after the grammar stage: visit the tree, run `_body`
(whose only fallible step is the `rate` tuple indexing), then `_footer`
(nr summary first, then the summary loop, then the log-time loop), in the
source's statement order. -/
def interpret (doc : Doc) (n : Nat) : Except Err PhysioLog :=
  match visit doc with
  | .error e => .error e
  | .ok v =>
    match getAt (v._data.take n) (if n = 4 then 2 else 3) with
    | .error e => .error e
    | .ok rate =>
      match mkNrSummary v._nr with
      | .error e => .error e
      | .ok nr =>
        match applyModalities (mkRecord n v rate nr) v with
        | .error e => .error e
        | .ok r1 => applyLogs r1 v

/-- The whitespace class of Python's regex `\s` (ASCII range; the logs are
ASCII). -/
def isSpaceChar (c : Char) : Bool :=
  c == ' ' || c == '\t' || c == '\n' || c == '\r' || c == '\x0b' || c == '\x0c'

/-- The digit class of Python's regex `\d` (ASCII range). -/
def isDigitChar (c : Char) : Bool :=
  c.isDigit

/-- Matcher for `(?:\d+\s+){k}5002` at the head of `cs`: `k` repetitions of
a non-empty digit run followed by a non-empty whitespace run, then the four
characters `5002`.  Because a digit run can only end at a non-digit and the
literal `5002` must start at the character right after the whitespace run,
the regex backtracking admits exactly this greedy decomposition, so this
function is equivalent to the corresponding regex fragment. -/
def matchReps : Nat → List Char → Bool
  | 0, cs => startsWithSeq "5002".toList cs
  | k + 1, cs =>
      let ds := cs.takeWhile isDigitChar
      let cs1 := cs.dropWhile isDigitChar
      let ws := cs1.takeWhile isSpaceChar
      let cs2 := cs1.dropWhile isSpaceChar
      !ds.isEmpty && !ws.isEmpty && matchReps k cs2

/-- Model of `PhysioLog.determine_params_heuristically`: the source matches the
content against the regex `^\s*((?:\d+\s+){4,5})5002` and returns the
number of integers in the first group on a match, else the default 4.  The
greedy counted repetition tries five repetitions first, then four. -/
def determine_params_heuristically (content : String) : Nat :=
  let cs := content.toList.dropWhile isSpaceChar
  if matchReps 5 cs then 5
  else if matchReps 4 cs then 4
  else 4

/-- Resolution of the parameter count in `PhysioLog.__init__`: an explicit
`n_params` argument is used unchanged, otherwise the heuristic runs on the
content. -/
def resolveNParams (n_params : Option Nat) (content : String) : Nat :=
  match n_params with
  | some n => n
  | none => determine_params_heuristically content

/-- Whitespace tokenizer (Python `str.split()` semantics): maximal runs of
non-whitespace characters. -/
def splitWsAux (cur : List Char) : List Char → List (List Char)
  | [] => if cur.isEmpty then [] else [cur.reverse]
  | c :: cs =>
      if isSpaceChar c then
        if cur.isEmpty then splitWsAux [] cs else cur.reverse :: splitWsAux [] cs
      else
        splitWsAux (c :: cur) cs

/-- Tokens of a content string, as character lists. -/
def tokenizeWs (content : String) : List (List Char) :=
  splitWsAux [] content.toList

/-- The five sentinel literals of the lexer. -/
def sentinelToks : List (List Char) :=
  ["5000".toList, "5002".toList, "5003".toList, "6002".toList, "6003".toList]

/-- An Integer token of the lexer: a non-empty all-digit unit that is not
one of the sentinel literals. -/
def isIntegerTok (t : List Char) : Bool :=
  !t.isEmpty && t.all isDigitChar && !(sentinelToks.contains t)

/-- Modelled from the spec: the parameter-count heuristic as the design
document words it, for comparison with the source regex.  Scan the token
stream from the start; if the first (maximal) run of consecutive Integer
tokens has length 4 or 5 and is immediately followed by the `5002`
sentinel token, that length is the parameter count; otherwise default
to 4. -/
def specHeuristicCount (content : String) : Nat :=
  let toks := tokenizeWs content
  let run := toks.takeWhile isIntegerTok
  let rest := toks.drop run.length
  if (run.length = 4 || run.length = 5) && rest.head? == some "5002".toList then
    run.length
  else
    4

/-- Modelled from the spec: a token of the lexed footer, an Integer or a
Word (keyword literals are Word tokens here). -/
inductive Tok
  | int (v : Int)
  | word (s : String)
deriving Repr, DecidableEq

/-- Modality keyword recognition of the grammar. -/
def parseModality : String → Option Modality
  | "ECG" => some .ECG
  | "PULS" => some .PULS
  | "RESP" => some .RESP
  | "EXT" => some .EXT
  | "EXT2" => some .EXT2
  | _ => none

/-- The four log-line keywords `Log (Start|Stop) (MDH|MPCU) Time`. -/
def logKeywords : List String :=
  ["LogStartMDHTime", "LogStopMDHTime", "LogStartMPCUTime", "LogStopMPCUTime"]

/-- Modelled from the spec: parsing one footer line against the four
grammar alternatives (rate-line `Modality Freq Per : int int`, stat-line
`Modality Min Max Avg StdDiff : int int int int`, nr-line
`NrTrig NrMP NrArr AcqWin : int int int int`, log-line
`Log(Start|Stop)(MDH|MPCU)Time : int`); `none` when no alternative
matches. -/
def parseFooterLine (toks : List Tok) : Option FooterLine :=
  match toks with
  | [.word m, .word "Freq", .word "Per", .word ":", .int a, .int b] =>
      (parseModality m).map (fun mm => .rate mm a b)
  | [.word m, .word "Min", .word "Max", .word "Avg", .word "StdDiff", .word ":",
      .int a, .int b, .int c, .int d] =>
      (parseModality m).map (fun mm => .stat mm a b c d)
  | [.word "NrTrig", .word "NrMP", .word "NrArr", .word "AcqWin", .word ":",
      .int a, .int b, .int c, .int d] =>
      some (.nr a b c d)
  | [.word kw, .word ":", .int v] =>
      if logKeywords.contains kw then some (.log kw v) else none
  | _ => none

/-- Modelled from the spec: parsing the footer's lines in order.  On the
first line matching none of the four alternatives the parser fails with a
`ParseError` carrying that line's position, and no tree at all is
produced (the error index counts from `i`). -/
def parseFooterFrom (i : Nat) : List (List Tok) → Except Nat (List FooterLine)
  | [] => .ok []
  | l :: rest =>
      match parseFooterLine l with
      | none => .error i
      | some fl =>
        match parseFooterFrom (i + 1) rest with
        | .error j => .error j
        | .ok fls => .ok (fl :: fls)

/-- Parsing a footer, reporting the 0-based index of the offending line on
failure. -/
def parseFooter (lines : List (List Tok)) : Except Nat (List FooterLine) :=
  parseFooterFrom 0 lines

/-- Truncated division expressed through Euclidean division, split on the
sign of the dividend.  This mirrors Python's `int(x / y)` truncation. -/
theorem tdiv_cases (a b : Int) (hb : 0 < b) :
    a.tdiv b = if 0 ≤ a then a / b else -((-a) / b) := by
  split
  · exact Int.tdiv_eq_ediv ‹_› (le_of_lt hb)
  · conv_lhs => rw [show a = -(-a) by omega]
    rw [Int.neg_tdiv, Int.tdiv_eq_ediv (by omega) (le_of_lt hb)]

/-- CLAIM C6.  The clock conversion is a pure function such that for every
integer timestamp `t` with `0 ≤ t ≤ 86399999` it returns
`(hour, minute, second, millisecond) =
(t div 3600000, (t div 60000) mod 60, (t div 1000) mod 60, t mod 1000)`
under floor-division semantics (the `datetime.time` value stores the
millisecond component scaled to microseconds). -/
theorem logptime_floor_div (t : Int) (h1 : 0 ≤ t) (h2 : t ≤ 86399999) :
    logptime t = .ok ⟨t / 3600000, t / 60000 % 60, t / 1000 % 60, t % 1000 * 1000⟩ := by
  have e1 : t.tdiv 1000 = t / 1000 := Int.tdiv_eq_ediv h1 (by decide)
  have p1 : 0 ≤ t / 1000 := Int.ediv_nonneg h1 (by decide)
  have e2 : (t / 1000).tdiv 60 = t / 1000 / 60 := Int.tdiv_eq_ediv p1 (by decide)
  have p2 : 0 ≤ t / 1000 / 60 := Int.ediv_nonneg p1 (by decide)
  have e3 : (t / 1000 / 60).tdiv 60 = t / 1000 / 60 / 60 := Int.tdiv_eq_ediv p2 (by decide)
  simp only [logptime, Time.make, e1, e2, e3]
  rw [if_pos (by omega), if_pos (by omega)]
  simp only [Except.ok.injEq, Time.mk.injEq]
  refine ⟨by omega, by omega, by omega, by omega⟩

/-- Witness for C6, including the three exact conversions named by the
claim (the first obtained through the theorem itself). -/
theorem logptime_floor_div_witness :
    logptime 123456 = .ok ⟨0, 2, 3, 456000⟩ ∧
    logptime 1000 = .ok ⟨0, 0, 1, 0⟩ ∧
    logptime 86399999 = .ok ⟨23, 59, 59, 999000⟩ := by
  refine ⟨(logptime_floor_div 123456 (by decide) (by decide)).trans (by rfl), rfl, rfl⟩

/-- COUNTEREXAMPLE to C10.  At `t = 2^31 * 3600000 = 7730941132800000`
the computed hour is exactly `2^31`, which does not fit in a C `int`, so
`datetime.time` raises `OverflowError` during argument conversion — before
any range check — and not the `ValueError` the claim asserts for every
out-of-range timestamp. -/
theorem logptime_overflow_counterexample :
    logptime 7730941132800000 = .error .overflowError ∧
    (Err.overflowError ≠ Err.valueError) :=
  ⟨by rfl, by decide⟩

/-- CLAIM C10, amended.  For every integer timestamp outside the valid
millisecond-of-day range (`t < 0` or `t > 86399999`) the conversion fails
rather than returning a value, so a `LogTime` with such a `start` or
`stop` cannot be built.  The failure is the time constructor's
`ValueError` (out-of-range hour or a negative field) exactly as long as
the computed hour fits in a C `int`, i.e. for
`-(2^31 + 1) * 3600000 < t < 2^31 * 3600000`; beyond that the
constructor's C-`int` argument conversion raises `OverflowError` before
any range check (and for astronomically large `|t|` Python's float
division overflows with the same `OverflowError`). -/
theorem logptime_out_of_range (t : Int) (h : t < 0 ∨ 86399999 < t) :
    (logptime t).toOption = none ∧
    (-7730941136400000 < t → t < 7730941132800000 →
      logptime t = .error .valueError) ∧
    (7730941132800000 ≤ t ∨ t ≤ -7730941136400000 →
      logptime t = .error .overflowError) := by
  have e1 := tdiv_cases t 1000 (by decide)
  have e2 := tdiv_cases (t.tdiv 1000) 60 (by decide)
  have e3 := tdiv_cases ((t.tdiv 1000).tdiv 60) 60 (by decide)
  refine ⟨?_, fun hlo hhi => ?_, fun hov => ?_⟩ <;>
    · simp only [logptime, Time.make]
      rw [e3, e2, e1]
      split_ifs <;> first | rfl | (exfalso; omega)

/-- Witness for C10 (amended): a negative timestamp and a barely overlarge
timestamp fail with `ValueError`, and a timestamp past the C-`int`
threshold fails with `OverflowError`. -/
theorem logptime_out_of_range_witness :
    logptime (-1) = .error .valueError ∧
    logptime 86400000 = .error .valueError ∧
    logptime 8000000000000000 = .error .overflowError :=
  ⟨(logptime_out_of_range (-1) (Or.inl (by decide))).2.1 (by decide) (by decide),
    (logptime_out_of_range 86400000 (Or.inr (by decide))).2.1 (by decide) (by decide),
    (logptime_out_of_range 8000000000000000 (Or.inr (by decide))).2.2
      (Or.inl (by decide))⟩

/-- COUNTEREXAMPLE to C2.  On `"1 2 3 4 5 50020"` the first run of
consecutive Integer tokens has length 6 (`50020` is an Integer token, and
no `5002` sentinel token occurs anywhere), so the claim's heuristic says
the resolved count is 4; the source regex `^\s*((?:\d+\s+){4,5})5002`
nevertheless matches, because the literal `5002` only has to match a
character prefix of the sixth number `50020`, and the resolved count is 5. -/
theorem resolveNParams_counterexample :
    resolveNParams none "1 2 3 4 5 50020" = 5 ∧
    specHeuristicCount "1 2 3 4 5 50020" = 4 := by
  exact ⟨rfl, rfl⟩

/-- CLAIM C2, amended.  An explicit caller-supplied count is used
unchanged regardless of the text.  Otherwise the count is decided on raw
characters, not tokens: after optional leading whitespace, if the text
continues with five whitespace-terminated digit runs followed immediately
by the characters `5002` the count is 5, and in every other case it is 4
(a four-run match also yields 4, as does no match).  The trailing `5002`
need not be a complete whitespace-delimited token, which is where the
character-level rule departs from the claim's token-level rule. -/
theorem resolveNParams_resolution (content : String) (n : Nat) :
    resolveNParams (some n) content = n ∧
    (matchReps 5 (content.toList.dropWhile isSpaceChar) = true →
      resolveNParams none content = 5) ∧
    (matchReps 5 (content.toList.dropWhile isSpaceChar) = false →
      resolveNParams none content = 4) := by
  refine ⟨rfl, fun h => ?_, fun h => ?_⟩
  · simp only [resolveNParams, determine_params_heuristically, h, if_true]
  · simp only [resolveNParams, determine_params_heuristically, h,
      Bool.false_eq_true, if_false]
    split <;> rfl

/-- Witness for C2 (amended): an explicit override of 7 beats the
heuristic, and without an override this text resolves to 4. -/
theorem resolveNParams_resolution_witness :
    resolveNParams (some 7) "1 2 3 4 5002 x 6002" = 7 ∧
    resolveNParams none "1 2 3 4 5002 x 6002" = 4 :=
  ⟨(resolveNParams_resolution "1 2 3 4 5002 x 6002" 7).1,
    (resolveNParams_resolution "1 2 3 4 5002 x 6002" 7).2.2 rfl⟩

/-- Integers a footer line contributes to modality `m`'s summary buffer. -/
def lineVals (m : Modality) : FooterLine → List Int
  | .rate m' f p => if m' = m then [f, p] else []
  | .stat m' a b c d => if m' = m then [a, b, c, d] else []
  | .nr _ _ _ _ => []
  | .log _ _ => []

/-- All integers the footer contributes to modality `m`'s summary buffer,
in document order. -/
def footerVals (m : Modality) : List FooterLine → List Int
  | [] => []
  | l :: rest => lineVals m l ++ footerVals m rest

/-- Concatenated per-line contributions under an arbitrary per-line
selector, in document order. -/
def logVals (f : FooterLine → List Int) : List FooterLine → List Int
  | [] => []
  | l :: rest => f l ++ logVals f rest

/-- Values of the last nr line of a footer, if any. -/
def nrLast : List FooterLine → Option (List Int)
  | [] => none
  | l :: rest =>
      match nrLast rest with
      | some v => some v
      | none =>
        match l with
        | .nr a b c d => some [a, b, c, d]
        | _ => none

/-- The integer a footer line contributes to the `MDH` log buffer. -/
def lineMDH : FooterLine → List Int
  | .log kw v => if containsSeq "MDH".toList kw.toList then [v] else []
  | _ => []

/-- The integer a footer line contributes to the `MPCU` log buffer. -/
def lineMPCU : FooterLine → List Int
  | .log kw v =>
      if containsSeq "MDH".toList kw.toList then []
      else if containsSeq "MPCU".toList kw.toList then [v] else []
  | _ => []

/-- Characterization of a successful visitor pass over a list of footer
lines: the body buffers are untouched, each modality's summary buffer is
extended by exactly the footer's contributions in order, the nr buffer
holds the last nr line's values (or the prior contents when no nr line
occurs), and the two log buffers are extended by their lines' values in
order. -/
theorem foldl_visitLine_ok (fl : List FooterLine) :
    ∀ st st' : VisitorState, List.foldlM visitLine st fl = .ok st' →
      st'._data = st._data ∧ st'._info = st._info ∧
      (∀ m, st'._summaries m = st._summaries m ++ footerVals m fl) ∧
      st'._nr = (nrLast fl).getD st._nr ∧
      st'.logsMDH = st.logsMDH ++ logVals lineMDH fl ∧
      st'.logsMPCU = st.logsMPCU ++ logVals lineMPCU fl := by
  induction fl with
  | nil =>
      intro st st' h
      simp only [List.foldlM_nil] at h
      cases h
      simp [footerVals, nrLast, logVals]
  | cons l rest ih =>
      intro st st' h
      simp only [List.foldlM_cons] at h
      cases hl : visitLine st l with
      | error e =>
          rw [hl] at h
          simp only [bind, Except.bind] at h
          exact Except.noConfusion h
      | ok st1 =>
          rw [hl] at h
          simp only [bind, Except.bind] at h
          obtain ⟨hd, hi, hs, hn, hm1, hm2⟩ := ih st1 st' h
          cases l with
          | rate m0 f p =>
              simp only [visitLine, Except.ok.injEq] at hl
              subst hl
              refine ⟨hd, hi, fun m => ?_, ?_, ?_, ?_⟩
              · rw [hs m]
                by_cases hmm : m = m0
                · subst hmm
                  simp [footerVals, lineVals, List.append_assoc]
                · simp [footerVals, lineVals, hmm, Ne.symm hmm]
              · cases hnr : nrLast rest <;> simp_all [nrLast]
              · simpa [logVals, lineMDH] using hm1
              · simpa [logVals, lineMPCU] using hm2
          | stat m0 a b c d =>
              simp only [visitLine, Except.ok.injEq] at hl
              subst hl
              refine ⟨hd, hi, fun m => ?_, ?_, ?_, ?_⟩
              · rw [hs m]
                by_cases hmm : m = m0
                · subst hmm
                  simp [footerVals, lineVals, List.append_assoc]
                · simp [footerVals, lineVals, hmm, Ne.symm hmm]
              · cases hnr : nrLast rest <;> simp_all [nrLast]
              · simpa [logVals, lineMDH] using hm1
              · simpa [logVals, lineMPCU] using hm2
          | nr a b c d =>
              simp only [visitLine, Except.ok.injEq] at hl
              subst hl
              refine ⟨hd, hi, fun m => ?_, ?_, ?_, ?_⟩
              · rw [hs m]
                simp [footerVals, lineVals]
              · cases hnr : nrLast rest <;> simp_all [nrLast]
              · simpa [logVals, lineMDH] using hm1
              · simpa [logVals, lineMPCU] using hm2
          | log kw v =>
              simp only [visitLine] at hl
              split at hl
              case isTrue h1 =>
                simp only [Except.ok.injEq] at hl
                subst hl
                refine ⟨hd, hi, fun m => ?_, ?_, ?_, ?_⟩
                · rw [hs m]
                  simp [footerVals, lineVals]
                · cases hnr : nrLast rest <;> simp_all [nrLast]
                · simp_all [logVals, lineMDH, List.append_assoc]
                · simp_all [logVals, lineMPCU]
              case isFalse h1 =>
                split at hl
                case isTrue h2 =>
                  simp only [Except.ok.injEq] at hl
                  subst hl
                  refine ⟨hd, hi, fun m => ?_, ?_, ?_, ?_⟩
                  · rw [hs m]
                    simp [footerVals, lineVals]
                  · cases hnr : nrLast rest <;> simp_all [nrLast]
                  · simp_all [logVals, lineMDH]
                  · simp_all [logVals, lineMPCU, List.append_assoc]
                case isFalse h2 => cases hl

/-- Fields of the record other than the five summary slots, bundled so
that preservation statements stay readable. -/
def scalarFields (r : PhysioLog) :
    Nat × List Int × List Int × List Int × Int × List String × NrSummary :=
  (r.n_params, r.data, r.params, r.ts, r.rate, r.info, r.nr)

/-- Setting one modality's summary leaves every other field alone. -/
theorem setSummary_fields (r : PhysioLog) (m : Modality) (s : MeasurementSummary) :
    scalarFields (setSummary r m s) = scalarFields r ∧
    (setSummary r m s).mdh = r.mdh ∧ (setSummary r m s).mpcu = r.mpcu ∧
    getSummary (setSummary r m s) m = some s ∧
    (∀ m', m' ≠ m → getSummary (setSummary r m s) m' = getSummary r m') := by
  cases m <;>
    refine ⟨rfl, rfl, rfl, rfl, fun m' hm' => ?_⟩ <;>
    cases m' <;> simp_all [setSummary, getSummary]

/-- Behaviour of one summary-loop iteration on success. -/
theorem applyModality_ok (v : VisitorState) (r : PhysioLog) (m : Modality)
    (r' : PhysioLog) (h : applyModality v r m = .ok r') :
    scalarFields r' = scalarFields r ∧ r'.mdh = r.mdh ∧ r'.mpcu = r.mpcu ∧
    (∀ m', m' ≠ m → getSummary r' m' = getSummary r m') ∧
    (v._summaries m = [] → getSummary r' m = getSummary r m) ∧
    (∀ s, mkMeasurement (v._summaries m) = .ok s → getSummary r' m = some s) := by
  unfold applyModality at h
  split at h
  · cases h
    refine ⟨rfl, rfl, rfl, fun m' _ => rfl, fun _ => rfl, fun s hs => ?_⟩
    rw [‹v._summaries m = []›] at hs
    cases hs
  · rename_i hne
    split at h
    · cases h
    · rename_i s0 hmk
      cases h
      have hf := setSummary_fields r m s0
      refine ⟨hf.1, hf.2.1, hf.2.2.1, hf.2.2.2.2, fun he => absurd he hne, fun s hs => ?_⟩
      rw [hmk] at hs
      injection hs with hss
      rw [← hss]
      exact hf.2.2.2.1

/-- Behaviour of the whole summary loop on success: scalar fields and the
log-time fields are untouched, and each modality slot ends up empty or
populated according to its buffer. -/
theorem applyModalities_ok (r : PhysioLog) (v : VisitorState) (r' : PhysioLog)
    (h : applyModalities r v = .ok r') :
    scalarFields r' = scalarFields r ∧ r'.mdh = r.mdh ∧ r'.mpcu = r.mpcu ∧
    (∀ m, (v._summaries m = [] → getSummary r' m = getSummary r m) ∧
      (∀ s, mkMeasurement (v._summaries m) = .ok s → getSummary r' m = some s)) := by
  unfold applyModalities at h
  split at h
  · cases h
  rename_i r1 h1
  split at h
  · cases h
  rename_i r2 h2
  split at h
  · cases h
  rename_i r3 h3
  split at h
  · cases h
  rename_i r4 h4
  obtain ⟨f1, d1, p1, o1, e1, s1⟩ := applyModality_ok v r .ECG r1 h1
  obtain ⟨f2, d2, p2, o2, e2, s2⟩ := applyModality_ok v r1 .PULS r2 h2
  obtain ⟨f3, d3, p3, o3, e3, s3⟩ := applyModality_ok v r2 .RESP r3 h3
  obtain ⟨f4, d4, p4, o4, e4, s4⟩ := applyModality_ok v r3 .EXT r4 h4
  obtain ⟨f5, d5, p5, o5, e5, s5⟩ := applyModality_ok v r4 .EXT2 r' h
  refine ⟨by rw [f5, f4, f3, f2, f1], by rw [d5, d4, d3, d2, d1],
    by rw [p5, p4, p3, p2, p1], fun m => ⟨fun he => ?_, fun s hs => ?_⟩⟩ <;> cases m
  · rw [o5 _ (by simp), o4 _ (by simp), o3 _ (by simp), o2 _ (by simp), e1 he]
  · rw [o5 _ (by simp), o4 _ (by simp), o3 _ (by simp), e2 he, o1 _ (by simp)]
  · rw [o5 _ (by simp), o4 _ (by simp), e3 he, o2 _ (by simp), o1 _ (by simp)]
  · rw [o5 _ (by simp), e4 he, o3 _ (by simp), o2 _ (by simp), o1 _ (by simp)]
  · rw [e5 he, o4 _ (by simp), o3 _ (by simp), o2 _ (by simp), o1 _ (by simp)]
  · rw [o5 _ (by simp), o4 _ (by simp), o3 _ (by simp), o2 _ (by simp), s1 s hs]
  · rw [o5 _ (by simp), o4 _ (by simp), o3 _ (by simp), s2 s hs]
  · rw [o5 _ (by simp), o4 _ (by simp), s3 s hs]
  · rw [o5 _ (by simp), s4 s hs]
  · rw [s5 s hs]

/-- Behaviour of the log-time loop on success: everything except `mdh` and
`mpcu` is untouched. -/
theorem applyLogs_ok (r : PhysioLog) (v : VisitorState) (r' : PhysioLog)
    (h : applyLogs r v = .ok r') :
    scalarFields r' = scalarFields r ∧
    (∀ m, getSummary r' m = getSummary r m) := by
  unfold applyLogs at h
  cases h1 : applyMDH v r with
  | error e => rw [h1] at h; cases h
  | ok r1 =>
  rw [h1] at h
  have step : ∀ w w' : PhysioLog, applyMDH v w = .ok w' ∨ applyMPCU v w = .ok w' →
      scalarFields w' = scalarFields w ∧ ∀ m, getSummary w' m = getSummary w m := by
    intro w w' hw
    rcases hw with hw | hw
    · unfold applyMDH at hw
      split at hw
      · cases hw; exact ⟨rfl, fun _ => rfl⟩
      · split at hw
        · cases hw
        · cases hw
          exact ⟨rfl, fun m => by cases m <;> rfl⟩
    · unfold applyMPCU at hw
      split at hw
      · cases hw; exact ⟨rfl, fun _ => rfl⟩
      · split at hw
        · cases hw
        · cases hw
          exact ⟨rfl, fun m => by cases m <;> rfl⟩
  obtain ⟨fa, sa⟩ := step r r1 (Or.inl h1)
  obtain ⟨fb, sb⟩ := step r1 r' (Or.inr h)
  exact ⟨fb.trans fa, fun m => (sb m).trans (sa m)⟩

/-- A successful visitor pass over a document, in terms of the document's
parts: `_data`/`_info` come from the body, the summary buffers and log
buffers collect the footer's contributions, and `_nr` is the last nr
line's values (empty when there is none). -/
theorem visit_ok (doc : Doc) (v : VisitorState) (h : visit doc = .ok v) :
    v._data = bodyData doc.body ∧ v._info = bodyInfo doc.body ∧
    (∀ m, v._summaries m = footerVals m doc.footer) ∧
    v._nr = (nrLast doc.footer).getD [] ∧
    v.logsMDH = logVals lineMDH doc.footer ∧
    v.logsMPCU = logVals lineMPCU doc.footer := by
  obtain ⟨hd, hi, hs, hn, h1, h2⟩ := foldl_visitLine_ok doc.footer _ v h
  exact ⟨hd, hi, fun m => by simpa using hs m, hn, by simpa using h1, by simpa using h2⟩

/-- Decomposition of a successful `interpret` run. -/
theorem interpret_ok (doc : Doc) (n : Nat) (r : PhysioLog)
    (h : interpret doc n = .ok r) :
    ∃ v, visit doc = .ok v ∧
      r.n_params = n ∧ r.data = v._data ∧ r.params = v._data.take n ∧
      r.ts = v._data.drop n ∧ r.info = v._info ∧
      getAt (v._data.take n) (if n = 4 then 2 else 3) = .ok r.rate ∧
      mkNrSummary v._nr = .ok r.nr ∧
      (∀ m, (v._summaries m = [] → getSummary r m = none) ∧
        (∀ s, mkMeasurement (v._summaries m) = .ok s → getSummary r m = some s)) := by
  unfold interpret at h
  split at h
  · cases h
  rename_i v hv
  split at h
  · cases h
  rename_i rate hr
  split at h
  · cases h
  rename_i nr hn
  split at h
  · cases h
  rename_i r1 hm
  obtain ⟨fm, _, _, sm⟩ := applyModalities_ok (mkRecord n v rate nr) v r1 hm
  obtain ⟨fl, sl⟩ := applyLogs_ok r1 v r h
  have hf : scalarFields r = scalarFields (mkRecord n v rate nr) := fl.trans fm
  simp only [scalarFields, mkRecord, Prod.mk.injEq] at hf
  obtain ⟨hnp, hdata, hparams, hts, hrate, hinfo, hnr⟩ := hf
  refine ⟨v, hv, hnp, hdata, hparams, hts, hinfo, ?_, ?_, fun m => ⟨fun he => ?_, fun s hs => ?_⟩⟩
  · rw [hrate]; exact hr
  · rw [hnr]; exact hn
  · rw [sl m, (sm m).1 he]
    simp [mkRecord, getSummary]
    cases m <;> simp [mkRecord, getSummary]
  · rw [sl m, (sm m).2 s hs]

/-- Body integers of concatenated item lists. -/
theorem bodyData_append (a b : List BodyItem) :
    bodyData (a ++ b) = bodyData a ++ bodyData b := by
  induction a with
  | nil => rfl
  | cons x rest ih => cases x <;> simp [bodyData, ih]

/-- A run of bare samples contributes exactly its values. -/
theorem bodyData_map_sample (ps : List Int) :
    bodyData (List.map BodyItem.sample ps) = ps := by
  induction ps with
  | nil => rfl
  | cons x rest ih => simp [bodyData, ih]

/-- Annotation strings of concatenated item lists. -/
theorem bodyInfo_append (a b : List BodyItem) :
    bodyInfo (a ++ b) = bodyInfo a ++ bodyInfo b := by
  induction a with
  | nil => rfl
  | cons x rest ih => cases x <;> simp [bodyInfo, ih]

/-- A run of bare samples contributes no annotation strings. -/
theorem bodyInfo_map_sample (ps : List Int) :
    bodyInfo (List.map BodyItem.sample ps) = [] := by
  induction ps with
  | nil => rfl
  | cons x rest ih => simp [bodyInfo, ih]

/-- Fallback-total accessor for a successful parse result, used to state
closed corollaries. -/
def getOk : Except Err PhysioLog → PhysioLog
  | .ok r => r
  | .error _ => ⟨0, [], [], [], 0, [], none, none, none, none, none, ⟨0, 0, 0, 0⟩, none, none⟩

/-- CLAIM C1.  For a well-formed body consisting of a parameter block of
`ps.length` integers followed by any interleaving of samples, `5000`
separators and annotation blocks, a successful parse yields `ts` equal to
exactly the bare samples after the parameter block in original order
(annotation contents and `5000` separators excluded, annotation blocks
never counted as samples wherever they appear) and `info` equal to the
annotation strings in encounter order. -/
theorem interpret_ts_info (ps : List Int) (items : List BodyItem)
    (fl : List FooterLine) (r : PhysioLog)
    (h : interpret ⟨List.map BodyItem.sample ps ++ items, fl⟩ ps.length = .ok r) :
    r.ts = bodyData items ∧ r.info = bodyInfo items := by
  obtain ⟨v, hv, _, _, _, hts, hinfo, _, _, _⟩ := interpret_ok _ _ _ h
  obtain ⟨vd, vi, _, _, _, _⟩ := visit_ok _ _ hv
  constructor
  · rw [hts, vd]
    simp only [bodyData_append, bodyData_map_sample]
    rw [List.drop_left]
  · rw [hinfo, vi, bodyInfo_append, bodyInfo_map_sample, List.nil_append]

/-- The footer used by the concrete end-to-end documents: the four standard
modality sections, an nr line and the four log-time lines. -/
def footerA : List FooterLine :=
  [.rate .ECG 0 0, .rate .PULS 75 790, .rate .RESP 11 5400, .rate .EXT 0 0,
   .stat .ECG 0 0 0 0, .stat .PULS 211 1055 530 47, .stat .RESP 4400 5600 5000 81,
   .stat .EXT 0 0 0 0, .nr 0 0 0 0,
   .log "LogStartMDHTime" 45927830, .log "LogStopMDHTime" 46462892,
   .log "LogStartMPCUTime" 45927920, .log "LogStopMPCUTime" 46462615]

/-- A document with one annotation block before and one interleaved among
the samples. -/
def docC1 : Doc :=
  ⟨List.map BodyItem.sample [1, 2, 40, 280] ++
    [.annot ["LOGVERSION", "102"], .sample 1236, .annot ["ACQ", "FINISHED"],
     .sample 1251, .sep, .sample 1679],
    footerA⟩

/-- Witness for C1: the annotated document parses with the two annotation
strings in encounter order and only the non-annotation integers in `ts`. -/
theorem interpret_ts_info_witness :
    (getOk (interpret docC1 4)).ts = [1236, 1251, 1679] ∧
    (getOk (interpret docC1 4)).info = ["LOGVERSION 102", "ACQ FINISHED"] := by
  have h := interpret_ts_info [1, 2, 40, 280]
    [.annot ["LOGVERSION", "102"], .sample 1236, .annot ["ACQ", "FINISHED"],
     .sample 1251, .sep, .sample 1679]
    footerA (getOk (interpret docC1 4)) (by rfl)
  exact ⟨h.1.trans (by rfl), h.2.trans (by rfl)⟩

/-- CLAIM C3.  For every record of a successful parse, `data` is the full
pre-footer integer run (with separators and annotation contents removed),
and it decomposes as `params ++ ts`: `params` is the first `n` integers
and `ts` the rest, with none discarded. -/
theorem interpret_data_decomposition (doc : Doc) (n : Nat) (r : PhysioLog)
    (h : interpret doc n = .ok r) :
    r.data = r.params ++ r.ts ∧ r.data = bodyData doc.body ∧
    r.params = r.data.take n ∧ r.ts = r.data.drop n := by
  obtain ⟨v, hv, _, hdata, hparams, hts, _, _, _, _⟩ := interpret_ok doc n r h
  obtain ⟨vd, _, _, _, _, _⟩ := visit_ok doc v hv
  refine ⟨?_, hdata.trans vd, by rw [hparams, hdata], by rw [hts, hdata]⟩
  rw [hdata, hparams, hts, List.take_append_drop]

/-- Witness for C3 on the annotated concrete document. -/
theorem interpret_data_decomposition_witness :
    (getOk (interpret docC1 4)).data = [1, 2, 40, 280, 1236, 1251, 1679] ∧
    (getOk (interpret docC1 4)).data =
      (getOk (interpret docC1 4)).params ++ (getOk (interpret docC1 4)).ts :=
  ⟨by rfl, (interpret_data_decomposition docC1 4 (getOk (interpret docC1 4)) (by rfl)).1⟩

/-- CLAIM C7.  For every successful parse with resolved parameter count
`n`, the record's `rate` is the third parameter when `n = 4` and the
fourth parameter otherwise. -/
theorem interpret_rate_selection (doc : Doc) (n : Nat) (r : PhysioLog)
    (h : interpret doc n = .ok r) :
    (n = 4 → r.params.get? 2 = some r.rate) ∧
    (n ≠ 4 → r.params.get? 3 = some r.rate) := by
  obtain ⟨v, hv, _, _, hparams, _, _, hrate, _, _⟩ := interpret_ok doc n r h
  unfold getAt at hrate
  split at hrate
  case h_2 => cases hrate
  case h_1 x hx =>
  injection hrate with hxr
  refine ⟨fun h4 => ?_, fun h4 => ?_⟩
  · subst h4
    rw [if_pos rfl] at hx
    rw [hparams, hx, hxr]
  · rw [if_neg h4] at hx
    rw [hparams, hx, hxr]

/-- The spec's first end-to-end body `1 2 40 280 1236 1251 5000 1679 1871`. -/
def docC7 : Doc :=
  ⟨List.map BodyItem.sample [1, 2, 40, 280] ++
    [.sample 1236, .sample 1251, .sep, .sample 1679, .sample 1871],
    footerA⟩

/-- Witness for C7: rate 40 drawn from the third of four parameters. -/
theorem interpret_rate_selection_witness :
    (getOk (interpret docC7 4)).rate = 40 ∧
    (getOk (interpret docC7 4)).params = [1, 2, 40, 280] ∧
    (getOk (interpret docC7 4)).params.get? 2 = some (getOk (interpret docC7 4)).rate :=
  ⟨by rfl, by rfl,
    (interpret_rate_selection docC7 4 (getOk (interpret docC7 4)) (by rfl)).1 rfl⟩

/-- CLAIM C9.  For every footer containing at least one nr line, the
record's `NrSummary` is built from the four integers of the last such
line; earlier nr lines have no effect. -/
theorem interpret_nr_last (doc : Doc) (n : Nat) (r : PhysioLog) (a b c d : Int)
    (h : interpret doc n = .ok r) (hl : nrLast doc.footer = some [a, b, c, d]) :
    r.nr = ⟨a, b, c, d⟩ := by
  obtain ⟨v, hv, _, _, _, _, _, _, hnr, _⟩ := interpret_ok doc n r h
  obtain ⟨_, _, _, hvn, _, _⟩ := visit_ok doc v hv
  rw [hvn, hl] at hnr
  simp only [Option.getD_some, mkNrSummary, Except.ok.injEq] at hnr
  exact hnr.symm

/-- A document with two nr lines; only the later one counts. -/
def docC9 : Doc :=
  ⟨List.map BodyItem.sample [1, 2, 40, 280, 1236],
    [.nr 9 9 9 9, .nr 1 2 3 4]⟩

/-- Witness for C9: the second nr line wins. -/
theorem interpret_nr_last_witness :
    (getOk (interpret docC9 4)).nr = ⟨1, 2, 3, 4⟩ :=
  interpret_nr_last docC9 4 (getOk (interpret docC9 4)) 1 2 3 4 (by rfl) (by rfl)

/-- Whether a footer line belongs to modality `m` (a rate or stat line of
that modality). -/
def mentionsB (m : Modality) : FooterLine → Bool
  | .rate m' _ _ => m' == m
  | .stat m' _ _ _ _ => m' == m
  | .nr _ _ _ _ => false
  | .log _ _ => false

/-- Lines of other modalities contribute nothing to `m`'s buffer. -/
theorem lineVals_of_not_mentions (m : Modality) (l : FooterLine)
    (h : mentionsB m l = false) : lineVals m l = [] := by
  cases l <;> simp_all [mentionsB, lineVals]

/-- A modality's buffer only depends on its own lines. -/
theorem footerVals_eq_filter (m : Modality) (fl : List FooterLine) :
    footerVals m fl = footerVals m (fl.filter (mentionsB m)) := by
  induction fl with
  | nil => rfl
  | cons l rest ih =>
      cases hm : mentionsB m l
      · simp [footerVals, List.filter_cons, hm, lineVals_of_not_mentions m l hm, ih]
      · simp [footerVals, List.filter_cons, hm, ih]

/-- CLAIM C4, amended.  For every successful parse and modality: if the
footer's lines for that modality are exactly one rate line followed
(anywhere later) by one stat line — the layout of real logs, which the
source assumes (its comment: "rate lines come before stat lines") — then
the modality's summary holds the six values in the order
`freq, per, min, max, avg, std_diff`, the rate line contributing
`freq, per` and the stat line `min, max, avg, std_diff`; and for every
modality with no footer lines the record field is `none`, never a
zero-filled summary.  (Without the ordering proviso the packing is by
document order; see the counterexample.) -/
theorem interpret_modality_summary (doc : Doc) (n : Nat) (r : PhysioLog)
    (m : Modality) (h : interpret doc n = .ok r) :
    (∀ a b c d e f,
      doc.footer.filter (mentionsB m) = [.rate m a b, .stat m c d e f] →
      getSummary r m = some ⟨a, b, c, d, e, f⟩) ∧
    (doc.footer.filter (mentionsB m) = [] → getSummary r m = none) := by
  obtain ⟨v, hv, _, _, _, _, _, _, _, hsum⟩ := interpret_ok doc n r h
  obtain ⟨_, _, hvs, _, _, _⟩ := visit_ok doc v hv
  have hfv : v._summaries m = footerVals m (doc.footer.filter (mentionsB m)) := by
    rw [hvs m, footerVals_eq_filter]
  constructor
  · intro a b c d e f hf
    rw [hf] at hfv
    have hbuf : v._summaries m = [a, b, c, d, e, f] := by
      rw [hfv]
      simp [footerVals, lineVals]
    exact (hsum m).2 ⟨a, b, c, d, e, f⟩ (by rw [hbuf]; rfl)
  · intro hf
    rw [hf] at hfv
    exact (hsum m).1 hfv

/-- A document whose ECG stat line precedes its ECG rate line. -/
def docC4 : Doc :=
  ⟨List.map BodyItem.sample [1, 2, 40, 280, 1236],
    [.stat .ECG 10 20 30 40, .rate .ECG 1 2, .nr 0 0 0 0]⟩

/-- COUNTEREXAMPLE to C4.  When a modality's stat line precedes its rate
line the parse still succeeds, but the six values are packed in document
order: the stat line's values land in `freq, per, min, max` and the rate
line's in `avg, std_diff`, not the claimed field assignment (which would
be `⟨1, 2, 10, 20, 30, 40⟩` here). -/
theorem interpret_modality_summary_counterexample :
    (interpret docC4 4).toOption.map PhysioLog.ecg =
      some (some ⟨10, 20, 30, 40, 1, 2⟩) ∧
    some (some (⟨10, 20, 30, 40, 1, 2⟩ : MeasurementSummary)) ≠
      some (some (⟨1, 2, 10, 20, 30, 40⟩ : MeasurementSummary)) :=
  ⟨by rfl, by decide⟩

/-- Witness for C4 (amended) on a document with rate before stat and with
the EXT2 modality absent. -/
theorem interpret_modality_summary_witness :
    (getOk (interpret docC7 4)).puls = some ⟨75, 790, 211, 1055, 530, 47⟩ ∧
    (getOk (interpret docC7 4)).ext2 = none := by
  have h := interpret_modality_summary docC7 4 (getOk (interpret docC7 4)) .PULS (by rfl)
  have h2 := interpret_modality_summary docC7 4 (getOk (interpret docC7 4)) .EXT2 (by rfl)
  exact ⟨h.1 75 790 211 1055 530 47 (by rfl), h2.2 (by rfl)⟩

/-- A well-formed document whose footer never mentions ECG at all. -/
def docC5 : Doc :=
  ⟨List.map BodyItem.sample [1, 2, 40, 280, 1236],
    [.rate .PULS 75 790, .stat .PULS 211 1055 530 47,
     .rate .RESP 11 5400, .stat .RESP 4400 5600 5000 81,
     .rate .EXT 0 0, .stat .EXT 0 0 0 0,
     .nr 0 0 0 0,
     .log "LogStartMDHTime" 45927830, .log "LogStopMDHTime" 46462892,
     .log "LogStartMPCUTime" 45927920, .log "LogStopMPCUTime" 46462615]⟩

/-- COUNTEREXAMPLE to C5.  A document in which a required modality section
(here the whole ECG rate+stat pair) never appears extracts successfully —
`toOption` is `some`, the ECG field is simply left empty — instead of
failing with an `IntegrityError` as claimed (no such error type exists in
the code, and no check runs for wholly absent sections). -/
theorem interpret_missing_modality_counterexample :
    (interpret docC5 4).toOption.map PhysioLog.ecg = some none := by
  rfl

/-- CLAIM C5, amended.  Only the nr line is effectively required: a
document whose footer has no nr line makes the extractor fail (the
`NrSummary` constructor is called with zero of its four required
positional arguments — a `TypeError`, as the code has no
`IntegrityError`).  A wholly absent modality section or log-time section
causes no failure; the corresponding field is left unset. -/
theorem interpret_missing_nr_fails (doc : Doc) (n : Nat)
    (h : nrLast doc.footer = none) : (interpret doc n).toOption = none := by
  cases hi : interpret doc n with
  | error e => rfl
  | ok r =>
    obtain ⟨v, hv, _, _, _, _, _, _, hnr, _⟩ := interpret_ok doc n r hi
    obtain ⟨_, _, _, hvn, _, _⟩ := visit_ok doc v hv
    rw [hvn, h] at hnr
    cases hnr

/-- A document missing the nr line but otherwise well-formed. -/
def docC5nr : Doc :=
  ⟨List.map BodyItem.sample [1, 2, 40, 280, 1236],
    [.rate .ECG 0 0, .stat .ECG 0 0 0 0,
     .log "LogStartMDHTime" 1000, .log "LogStopMDHTime" 2000]⟩

/-- Witness for C5 (amended): the nr-less document fails to extract. -/
theorem interpret_missing_nr_fails_witness :
    (interpret docC5nr 4).toOption = none :=
  interpret_missing_nr_fails docC5nr 4 (by rfl)

/-- Any unmatched line makes the footer parser fail, reporting the
position (relative to the starting index) of an unmatched line. -/
theorem parseFooterFrom_bad (lines : List (List Tok)) :
    ∀ i, (∃ l ∈ lines, parseFooterLine l = none) →
      ∃ k bad, parseFooterFrom i lines = .error (i + k) ∧
        lines.get? k = some bad ∧ parseFooterLine bad = none := by
  induction lines with
  | nil =>
      intro i h
      simp at h
  | cons l rest ih =>
      intro i h
      cases hp : parseFooterLine l with
      | none =>
          exact ⟨0, l, by simp [parseFooterFrom, hp], by simp, hp⟩
      | some fl =>
          have hrest : ∃ l' ∈ rest, parseFooterLine l' = none := by
            rcases h with ⟨l', hl', hn⟩
            rcases List.mem_cons.mp hl' with rfl | hmem
            · rw [hp] at hn; cases hn
            · exact ⟨l', hmem, hn⟩
          obtain ⟨k, bad, hk, hg, hb⟩ := ih (i + 1) hrest
          refine ⟨k + 1, bad, ?_, by simpa using hg, hb⟩
          have harith : i + 1 + k = i + (k + 1) := by omega
          rw [harith] at hk
          simp [parseFooterFrom, hp, hk]

/-- CLAIM C8.  For every footer containing a line matching none of the
four alternatives (rate, stat, nr, log), the parse fails with a
`ParseError` carrying the position of an unmatched line; no line is
silently skipped and — the parser returning `Except` — no partial list of
footer lines is produced. -/
theorem parseFooter_rejects_unmatched (lines : List (List Tok))
    (h : ∃ l ∈ lines, parseFooterLine l = none) :
    ∃ j bad, parseFooter lines = .error j ∧ lines.get? j = some bad ∧
      parseFooterLine bad = none := by
  obtain ⟨k, bad, hk, hg, hb⟩ := parseFooterFrom_bad lines 0 h
  exact ⟨k, bad, by simpa [parseFooter] using hk, hg, hb⟩

/-- Witness for C8: a footer whose second line has an unrecognized
keyword parses to an error at position 1. -/
theorem parseFooter_rejects_unmatched_witness :
    parseFooter [[Tok.word "ECG", Tok.word "Freq", Tok.word "Per", Tok.word ":",
        Tok.int 0, Tok.int 0],
      [Tok.word "BOGUS", Tok.word ":", Tok.int 1]] = .error 1 ∧
    (∃ j bad, parseFooter [[Tok.word "ECG", Tok.word "Freq", Tok.word "Per",
        Tok.word ":", Tok.int 0, Tok.int 0],
      [Tok.word "BOGUS", Tok.word ":", Tok.int 1]] = .error j ∧
      [[Tok.word "ECG", Tok.word "Freq", Tok.word "Per", Tok.word ":",
        Tok.int 0, Tok.int 0],
      [Tok.word "BOGUS", Tok.word ":", Tok.int 1]].get? j = some bad ∧
      parseFooterLine bad = none) :=
  ⟨by rfl,
    parseFooter_rejects_unmatched _
      ⟨[Tok.word "BOGUS", Tok.word ":", Tok.int 1], by simp, by rfl⟩⟩

end FmriPhysioLog
